import Mathlib

/-!
Shallow embedding of `src/apps/desktop/src-tauri/src/lib.rs` (the desktop
launcher of rms-tauri): sidecar lifecycle and readiness orchestration.

Modelling conventions:
* Machine time is in milliseconds, as a `Nat` (`Instant` arithmetic never
  underflows in the source: deadlines are `start + timeout`).
* The operating system and the host application are oracles packaged in
  environment structures (`NetEnv`, `ProbeEnv`, `Fs`, `SidecarEnv`): each
  fallible call becomes an `Except String` field, each observation a function
  field.
* Paths are strings; `PathBuf::join(a, b)` is modelled as `a ++ "/" ++ b`,
  which is what `display()` renders for the non-empty bases used here.
* Side effects of `start_sidecar` (log lines, runtime-info push, spawn,
  readiness probe, URL open) are collected in an ordered trace of `Effect`s.
-/

namespace RmsTauri

/-- `const SERVER_HOST: &str = "0.0.0.0"` -/
def SERVER_HOST : String := "0.0.0.0"

/-- `const LOCALHOST: &str = "127.0.0.1"` -/
def LOCALHOST : String := "127.0.0.1"

/-- `fn format_http_url(host: &str, port: u16) -> String`:
if the port is 80 render `http://{host}`, otherwise `http://{host}:{port}`. -/
def format_http_url (host : String) (port : Nat) : String :=
  if port = 80 then
    "http://" ++ host
  else
    "http://" ++ host ++ ":" ++ toString port

/-- Oracle for the three OS calls made by `detect_lan_ip`:
`UdpSocket::bind("0.0.0.0:0")`, `socket.connect("8.8.8.8:80")`, and
`socket.local_addr()` (we keep only the rendered IP of the local address). -/
structure NetEnv where
  bindUdp : Except String Unit
  connectWan : Except String Unit
  localIp : Except String String

/-- `fn detect_lan_ip() -> String`. Note the source discards the result of
`socket.connect("8.8.8.8:80")` (`let _ = ...`): a connect failure does not
take the loopback fallback path. -/
def detect_lan_ip (net : NetEnv) : String :=
  match net.bindUdp with
  | .error _ => "127.0.0.1"
  | .ok _ =>
    -- `let _ = socket.connect("8.8.8.8:80");` : result discarded
    match net.localIp with
    | .error _ => "127.0.0.1"
    | .ok address => address

/-- Oracle for the readiness probe: for a port and the instant (ms) an
attempt starts, whether `TcpStream::connect_timeout` succeeds, and how many
milliseconds the attempt takes (the source caps it at 250 via
`Duration::from_millis(250)`, enforced below by `attemptDur`). -/
structure ProbeEnv where
  connectOk : Nat → Nat → Bool
  connectDur : Nat → Nat → Nat

/-- Elapsed time of one `connect_timeout(&address, 250ms)` call: the oracle's
duration, capped by the 250 ms per-attempt timeout. -/
def attemptDur (env : ProbeEnv) (port t : Nat) : Nat :=
  min (env.connectDur port t) 250

/-- The `while Instant::now() < deadline` loop body of `wait_for_server`:
at instant `now`, if the deadline has not passed, try one connect (true on
success), otherwise sleep 200 ms and loop. -/
def waitFrom (env : ProbeEnv) (port deadline now : Nat) : Bool :=
  if now < deadline then
    if env.connectOk port now then
      true
    else
      waitFrom env port deadline (now + attemptDur env port now + 200)
  else
    false
termination_by deadline - now
decreasing_by
  simp_wf
  omega

/-- `fn wait_for_server(port: u16, timeout: Duration) -> bool` with the start
instant explicit: `deadline = start + timeout`. -/
def wait_for_server (env : ProbeEnv) (port start timeoutMs : Nat) : Bool :=
  waitFrom env port (start + timeoutMs) start

/-- The start instants of the connect attempts the loop performs, in order
(stops right after the first successful attempt). -/
def attemptTimes (env : ProbeEnv) (port deadline now : Nat) : List Nat :=
  if now < deadline then
    if env.connectOk port now then
      [now]
    else
      now :: attemptTimes env port deadline (now + attemptDur env port now + 200)
  else
    []
termination_by deadline - now
decreasing_by
  simp_wf
  omega

/-- The instant at which `wait_for_server` returns: right after the
successful connect, or at the deadline check that fails (the last failed
cycle runs a full connect attempt plus the 200 ms sleep first). -/
def finishTime (env : ProbeEnv) (port deadline now : Nat) : Nat :=
  if now < deadline then
    if env.connectOk port now then
      now + attemptDur env port now
    else
      finishTime env port deadline (now + attemptDur env port now + 200)
  else
    now
termination_by deadline - now
decreasing_by
  simp_wf
  omega

/-- Filesystem oracle for the asset resolver. `isFile p` is `Path::is_file`
on the rendered path `p`; `subdirs d` lists, in `read_dir` order, the
entries of directory `d` that are directories (a failing `read_dir` and
non-directory entries are already dropped, as the source drops them with
`else { continue }`, `.flatten()` and `path.is_dir()`). -/
structure Fs where
  isFile : String → Bool
  subdirs : String → List String

/-- `fn has_index_html(directory: &Path) -> bool`:
`directory.join("index.html").is_file()`. -/
def has_index_html (fs : Fs) (directory : String) : Bool :=
  fs.isFile (directory ++ "/" ++ "index.html")

/-- The `direct_candidates` array of `find_web_dist_in_resources`, in
source order. -/
def directCandidates (resource_dir : String) : List String :=
  [ resource_dir
  , resource_dir ++ "/" ++ "web-dist"
  , resource_dir ++ "/" ++ "dist"
  , resource_dir ++ "/" ++ "web" ++ "/" ++ "dist"
  , resource_dir ++ "/" ++ "_up_" ++ "/" ++ "_up_" ++ "/" ++ "web" ++ "/" ++ "dist" ]

/-- The `for candidate in direct_candidates` loop: first candidate holding
the `index.html` marker. -/
def firstWithIndex (fs : Fs) : List String → Option String
  | [] => none
  | c :: cs => if has_index_html fs c then some c else firstWithIndex fs cs

/-- `const MAX_SEARCH_DEPTH: usize = 5` -/
def MAX_SEARCH_DEPTH : Nat := 5

/-- Upper bound on the number of stack pops a search entry at remaining
budget `b` can cause (size of the directory tree truncated at depth `b`). -/
def treeCount (fs : Fs) : Nat → String → Nat
  | 0, _ => 1
  | b + 1, d => 1 + ((fs.subdirs d).map (fun c => treeCount fs b c)).sum

/-- Measure for the `while let Some((directory, depth)) = stack.pop()` loop. -/
def stackMeasure (fs : Fs) (stack : List (String × Nat)) : Nat :=
  (stack.map (fun e => treeCount fs (MAX_SEARCH_DEPTH - e.2) e.1)).sum

/-- The stack-driven bounded search of `find_web_dist_in_resources`. The Rust
`Vec` pops from its end; we keep the list reversed (head = top of stack), so
pushing the `read_dir` children in order means prepending their reversal. -/
def searchStack (fs : Fs) : List (String × Nat) → Option String
  | [] => none
  | (directory, depth) :: rest =>
    if has_index_html fs directory then
      some directory
    else if MAX_SEARCH_DEPTH ≤ depth then
      searchStack fs rest
    else
      searchStack fs
        (((fs.subdirs directory).map (fun c => (c, depth + 1))).reverse ++ rest)
termination_by stack => stackMeasure fs stack
decreasing_by
  all_goals simp_wf
  · have h1 : 1 ≤ treeCount fs (MAX_SEARCH_DEPTH - depth) directory := by
      cases MAX_SEARCH_DEPTH - depth <;> simp [treeCount]
    simp only [stackMeasure, List.map_cons, List.sum_cons]
    omega
  · simp only [stackMeasure, List.map_cons, List.sum_cons]
    have hd : MAX_SEARCH_DEPTH - depth = (MAX_SEARCH_DEPTH - (depth + 1)) + 1 := by
      omega
    rw [hd, treeCount]
    simp only [List.map_append, List.sum_append, List.map_reverse,
      List.sum_reverse, List.map_map]
    have : ((fs.subdirs directory).map
        ((fun e => treeCount fs (MAX_SEARCH_DEPTH - e.2) e.1) ∘ (fun c => (c, depth + 1)))).sum
        = ((fs.subdirs directory).map (fun c => treeCount fs (MAX_SEARCH_DEPTH - (depth + 1)) c)).sum :=
      rfl
    omega

/-- `fn find_web_dist_in_resources(resource_dir: &Path) -> Option<PathBuf>`:
the five direct candidates first, then the depth-bounded stack search
starting from `(resource_dir, 0)`. -/
def find_web_dist_in_resources (fs : Fs) (resource_dir : String) : Option String :=
  match firstWithIndex fs (directCandidates resource_dir) with
  | some candidate => some candidate
  | none => searchStack fs [(resource_dir, 0)]

/-- `PathBuf::from(env!("CARGO_MANIFEST_DIR")).join("..").join("..")
.join("web").join("dist")` rendered by `display()`. -/
def workspacePath (manifestDir : String) : String :=
  manifestDir ++ "/" ++ ".." ++ "/" ++ ".." ++ "/" ++ "web" ++ "/" ++ "dist"

/-- `fn resolve_web_dist(app: &tauri::AppHandle) -> PathBuf`, with the host
environment explicit: `resourceDir` is `app.path().resource_dir()`,
`manifestDir` the compile-time `CARGO_MANIFEST_DIR`. Always returns a path:
the workspace path is the unconditional last resort (the source's final
`has_index_html` check returns the same path in both branches). -/
def resolve_web_dist (fs : Fs) (resourceDir : Except String String)
    (manifestDir : String) : String :=
  let workspace_path := workspacePath manifestDir
  match resourceDir with
  | .ok resource_dir =>
    match find_web_dist_in_resources fs resource_dir with
    | some web_dist => web_dist
    | none =>
      if has_index_html fs workspace_path then workspace_path else workspace_path
  | .error _ =>
    if has_index_html fs workspace_path then workspace_path else workspace_path

/-- `const SIDECAR_BINARY: &str = "rms-server-sidecar"` (kept for the record;
the spawn oracle below receives only the argument list, the binary being the
fixed sidecar identifier). -/
def SIDECAR_BINARY : String := "rms-server-sidecar"

/-- Observable side effects of `start_sidecar`, in the order they happen.
`log` is `append_log`, `setRuntimeInfo` is the runtime-info push,
`spawned` records the `.spawn()` call with its argument list, `probed`
records the `wait_for_server` call, `openUrl` the `opener().open_url` call. -/
inductive Effect where
  | log (msg : String)
  | setRuntimeInfo (localUrl lanUrl dbPath : String)
  | spawned (args : List String)
  | probed (port : Nat)
  | openUrl (url : String)
deriving DecidableEq, Repr

/-- Host/OS oracle for one `start_sidecar` launch attempt. -/
structure SidecarEnv where
  /-- `reserve_local_port()`: bind a listener on `(LOCALHOST, 0)` and read
  the assigned port back; both steps can fail, collapsed into one result. -/
  reservePort : Except String Nat
  /-- `app.path().app_data_dir()` -/
  appDataDir : Except String String
  /-- `fs::create_dir_all(&app_data_dir)` -/
  createDirAll : String → Except String Unit
  /-- `app.path().resource_dir()` -/
  resourceDir : Except String String
  /-- filesystem seen by `has_index_html` / the recursive search -/
  fs : Fs
  /-- `env!("CARGO_MANIFEST_DIR")` -/
  manifestDir : String
  /-- OS calls of `detect_lan_ip` -/
  net : NetEnv
  /-- `app.shell().sidecar(SIDECAR_BINARY)`: command lookup -/
  sidecarCmd : Except String Unit
  /-- `.args(sidecar_args).spawn()` -/
  spawn : List String → Except String Unit
  /-- outcomes of the `TcpStream::connect_timeout` probes -/
  probe : ProbeEnv
  /-- the instant (ms) at which `wait_for_server` is entered -/
  probeStart : Nat
  /-- `app.opener().open_url(&local_url, None)` -/
  openUrl : String → Except String Unit

/-- `fn start_sidecar(app: &tauri::AppHandle) -> Result<(), String>`:
returns the ordered effect trace together with the result. Each
`map_err(|error| error.to_string())?` is an immediate return of the step's
error string. -/
def start_sidecar (env : SidecarEnv) : List Effect × Except String Unit :=
  let t0 := [Effect.log "Preparing local runtime..."]
  match env.reservePort with
  | .error e => (t0, .error e)
  | .ok server_port =>
    let t1 := t0 ++ [Effect.log ("Selected available port: " ++ toString server_port)]
    match env.appDataDir with
    | .error e => (t1, .error e)
    | .ok app_data_dir =>
      match env.createDirAll app_data_dir with
      | .error e => (t1, .error e)
      | .ok _ =>
        let db_path_text := app_data_dir ++ "/" ++ "rms-local.db"
        let web_dist_text := resolve_web_dist env.fs env.resourceDir env.manifestDir
        let lan_ip := detect_lan_ip env.net
        let local_url := format_http_url LOCALHOST server_port
        let lan_url := format_http_url lan_ip server_port
        let t2 := t1 ++
          [ Effect.setRuntimeInfo local_url lan_url db_path_text
          , Effect.log ("Database path: " ++ db_path_text)
          , Effect.log ("Serving web assets from: " ++ web_dist_text)
          , Effect.log ("LAN URL: " ++ lan_url) ]
        let sidecar_args :=
          [ "--host", SERVER_HOST
          , "--port", toString server_port
          , "--db-path", db_path_text
          , "--web-dist", web_dist_text ]
        let t3 := t2 ++ [Effect.log "Starting sidecar runtime..."]
        match env.sidecarCmd with
        | .error e => (t3, .error e)
        | .ok _ =>
          -- the `.args(sidecar_args).spawn()` call itself
          let t3b := t3 ++ [Effect.spawned sidecar_args]
          match env.spawn sidecar_args with
          | .error e => (t3b, .error e)
          | .ok _ =>
            -- `std::mem::forget(sidecar)` then the async drain task
            -- (modelled separately by `drainOutput`) are spawned here.
            let t4 := t3b ++
              [ Effect.log "Waiting for HTTP server readiness..."
              , Effect.probed server_port ]
            if wait_for_server env.probe server_port env.probeStart 10000 then
              let t5 := t4 ++ [Effect.log "Server is ready. Opening browser...",
                               Effect.openUrl local_url]
              match env.openUrl local_url with
              | .error e => (t5, .error e)
              | .ok _ => (t5 ++ [Effect.log ("Opened: " ++ local_url)], .ok ())
            else
              (t4 ++ [Effect.log "Server did not become ready within timeout."],
               .error "Sidecar readiness timeout")

/-- Events delivered on the sidecar's output channel, as matched by the
drain task (`CommandEvent::Stdout`, `CommandEvent::Stderr`, and the
catch-all `_ => {}` arm). Lines are already decoded
(`String::from_utf8_lossy`). -/
inductive SidecarEvent where
  | stdout (line : String)
  | stderr (line : String)
  | other
deriving DecidableEq, Repr

/-- Rust's `str::trim`: strip leading and trailing whitespace. Modelled on
the character list (Rust trims by `char::is_whitespace`; for the ASCII
whitespace relevant here this agrees with `Char.isWhitespace`). -/
def rustTrim (s : String) : String :=
  ⟨((s.data.dropWhile Char.isWhitespace).reverse.dropWhile Char.isWhitespace).reverse⟩

/-- The body of the async drain task: one `append_log` message per non-blank
line, tagged by channel (`[sidecar]` for stdout, `[sidecar:err]` for
stderr); blank (whitespace-only after trim) lines produce nothing. -/
def drainOutput : List SidecarEvent → List String
  | [] => []
  | .stdout line :: rest =>
    let text := rustTrim line
    if text = "" then drainOutput rest
    else ("[sidecar] " ++ text) :: drainOutput rest
  | .stderr line :: rest =>
    let text := rustTrim line
    if text = "" then drainOutput rest
    else ("[sidecar:err] " ++ text) :: drainOutput rest
  | .other :: rest => drainOutput rest

/-- Whether one output event makes the drain task emit a log message. -/
def emitsLog : SidecarEvent → Bool
  | .stdout line => if rustTrim line = "" then false else true
  | .stderr line => if rustTrim line = "" then false else true
  | .other => false

/-- `Reach fs b root d`: directory `d` is reachable from `root` by following
at most `b` `subdirs` edges. -/
inductive Reach (fs : Fs) : Nat → String → String → Prop where
  | refl (b : Nat) (d : String) : Reach fs b d d
  | step {b : Nat} {d c e : String} :
      c ∈ fs.subdirs d → Reach fs b c e → Reach fs (b + 1) d e


/-! ### Effect-trace observers and concrete test environments -/

/-- Is this effect the runtime-info push? -/
def isSetInfo : Effect → Bool
  | .setRuntimeInfo _ _ _ => true
  | _ => false

/-- Is this effect the sidecar spawn call? -/
def isSpawned : Effect → Bool
  | .spawned _ => true
  | _ => false

/-- Is this effect the readiness probe? -/
def isProbed : Effect → Bool
  | .probed _ => true
  | _ => false

/-- Is this effect the browser-open call? -/
def isOpen : Effect → Bool
  | .openUrl _ => true
  | _ => false

/-- `env` with every step before the readiness probe forced to succeed:
port reservation yields `p`, the data directory is `d`, directory creation,
sidecar lookup and spawn succeed. -/
def okEnv (env : SidecarEnv) (p : Nat) (d : String) : SidecarEnv :=
  { env with
    reservePort := .ok p
    appDataDir := .ok d
    createDirAll := fun _ => .ok ()
    sidecarCmd := .ok ()
    spawn := fun _ => .ok () }

/-- A port that never accepts: every connect attempt fails after the full
250 ms connect timeout. -/
def probeNever : ProbeEnv := ⟨fun _ _ => false, fun _ _ => 250⟩

/-- A listener that starts accepting at instant 400 ms; failed attempts run
the full 250 ms. -/
def probeSeq : ProbeEnv := ⟨fun _ t => decide (400 ≤ t), fun _ _ => 250⟩

/-- A listener that is already accepting; connects succeed instantly. -/
def probeAlways : ProbeEnv := ⟨fun _ _ => true, fun _ _ => 0⟩

/-- All three `detect_lan_ip` OS calls succeed. -/
def netOk : NetEnv := ⟨.ok (), .ok (), .ok "192.168.1.2"⟩

/-- Socket creation succeeds, the WAN connect fails, and the local-address
lookup then reports the unroutable wildcard address (what a UDP socket
reports when it was never connected). -/
def netConnectFail : NetEnv := ⟨.ok (), .error "network unreachable", .ok "0.0.0.0"⟩

/-- An empty filesystem: no files, no subdirectories. -/
def fsEmpty : Fs := ⟨fun _ => false, fun _ => []⟩

/-- A filesystem whose only file is the marker under `/rd/dist` (the third
direct candidate for resource root `/rd`). -/
def fsDist : Fs := ⟨fun p => p == "/rd/dist/index.html", fun _ => []⟩

/-- A concrete launch environment whose port reservation fails at once. -/
def envReserveFail : SidecarEnv :=
  { reservePort := .error "bind failed"
    appDataDir := .ok "/data"
    createDirAll := fun _ => .ok ()
    resourceDir := .error "no resource dir"
    fs := fsEmpty
    manifestDir := "/ws"
    net := netOk
    sidecarCmd := .ok ()
    spawn := fun _ => .ok ()
    probe := probeAlways
    probeStart := 0
    openUrl := fun _ => .ok () }

/-- A concrete launch environment in which everything succeeds and the
sidecar port starts accepting at 400 ms. -/
def envHappy : SidecarEnv :=
  { reservePort := .ok 8080
    appDataDir := .ok "/data"
    createDirAll := fun _ => .ok ()
    resourceDir := .error "no resource dir"
    fs := fsEmpty
    manifestDir := "/ws"
    net := netOk
    sidecarCmd := .ok ()
    spawn := fun _ => .ok ()
    probe := probeSeq
    probeStart := 0
    openUrl := fun _ => .ok () }

/-! ### Lemmas about the readiness-probe loop -/

theorem waitFrom_true_iff (env : ProbeEnv) (port deadline : Nat) (now : Nat) :
    waitFrom env port deadline now = true ↔
      ∃ t ∈ attemptTimes env port deadline now, env.connectOk port t = true := by
  induction now using attemptTimes.induct env port deadline with
  | case1 x hx hok =>
    rw [waitFrom, attemptTimes]
    simp [hx, hok]
  | case2 x hx hok ih =>
    rw [waitFrom, attemptTimes]
    simp only [if_pos hx, if_neg hok, List.mem_cons]
    rw [ih]
    constructor
    · rintro ⟨t, ht, hc⟩
      exact ⟨t, Or.inr ht, hc⟩
    · rintro ⟨t, ht | ht, hc⟩
      · exact absurd (ht ▸ hc) hok
      · exact ⟨t, ht, hc⟩
  | case3 x hx =>
    rw [waitFrom, attemptTimes]
    simp [hx]

theorem attemptTimes_mem_lt (env : ProbeEnv) (port deadline : Nat) (now : Nat) :
    ∀ t ∈ attemptTimes env port deadline now, now ≤ t ∧ t < deadline := by
  induction now using attemptTimes.induct env port deadline with
  | case1 x hx hok =>
    rw [attemptTimes]
    simp [hx, hok]
  | case2 x hx hok ih =>
    rw [attemptTimes]
    simp only [if_pos hx, if_neg hok, List.mem_cons]
    rintro t (rfl | ht)
    · exact ⟨le_refl _, hx⟩
    · have := ih t ht
      omega
  | case3 x hx =>
    rw [attemptTimes]
    simp [hx]

theorem attemptTimes_dropLast_fail (env : ProbeEnv) (port deadline : Nat) (now : Nat) :
    ∀ t ∈ (attemptTimes env port deadline now).dropLast,
      env.connectOk port t = false := by
  induction now using attemptTimes.induct env port deadline with
  | case1 x hx hok =>
    rw [attemptTimes]
    simp [hx, hok]
  | case2 x hx hok ih =>
    rw [attemptTimes]
    simp only [if_pos hx, if_neg hok]
    intro t ht
    rcases h : attemptTimes env port deadline (x + attemptDur env port x + 200) with
      _ | ⟨y, ys⟩
    · rw [h] at ht
      simp at ht
    · rw [h, List.dropLast_cons₂, List.mem_cons] at ht
      rcases ht with rfl | ht
      · exact Bool.not_eq_true _ ▸ hok
      · exact ih t (h ▸ ht)
  | case3 x hx =>
    rw [attemptTimes]
    simp [hx]

theorem attemptTimes_head (env : ProbeEnv) (port deadline now : Nat) :
    (attemptTimes env port deadline now).head? =
      if now < deadline then some now else none := by
  rw [attemptTimes]
  split
  · split <;> simp
  · simp

theorem attemptTimes_chain (env : ProbeEnv) (port deadline : Nat) (now : Nat) :
    List.Chain' (fun a b => b = a + attemptDur env port a + 200)
      (attemptTimes env port deadline now) := by
  induction now using attemptTimes.induct env port deadline with
  | case1 x hx hok =>
    rw [attemptTimes]
    simp [hx, hok]
  | case2 x hx hok ih =>
    rw [attemptTimes]
    simp only [if_pos hx, if_neg hok]
    rw [List.chain'_cons']
    refine ⟨?_, ih⟩
    intro y hy
    rw [attemptTimes_head] at hy
    split at hy
    · simp only [Option.mem_def, Option.some.injEq] at hy
      omega
    · simp at hy
  | case3 x hx =>
    rw [attemptTimes]
    simp [hx]

theorem attemptTimes_eq_nil_iff (env : ProbeEnv) (port deadline now : Nat) :
    attemptTimes env port deadline now = [] ↔ deadline ≤ now := by
  rw [attemptTimes]
  split
  · split <;> simp <;> omega
  · simp
    omega

theorem finishTime_le (env : ProbeEnv) (port deadline : Nat) (now : Nat) :
    finishTime env port deadline now ≤ max now (deadline + 449) := by
  induction now using finishTime.induct env port deadline with
  | case1 x hx hok =>
    rw [finishTime]
    simp only [if_pos hx, if_pos hok]
    have hdur : attemptDur env port x ≤ 250 := min_le_right _ _
    omega
  | case2 x hx hok ih =>
    rw [finishTime]
    simp only [if_pos hx, if_neg hok]
    have hdur : attemptDur env port x ≤ 250 := min_le_right _ _
    omega
  | case3 x hx =>
    rw [finishTime]
    simp only [if_neg hx]
    omega

theorem waitFrom_eq_false_of_never (env : ProbeEnv) (port deadline now : Nat)
    (h : ∀ t, env.connectOk port t = false) :
    waitFrom env port deadline now = false := by
  rw [Bool.eq_false_iff]
  intro htrue
  obtain ⟨t, _, hc⟩ := (waitFrom_true_iff env port deadline now).mp htrue
  rw [h t] at hc
  exact Bool.false_ne_true hc

theorem wait_for_server_eq_true_of_always (env : ProbeEnv) (port start timeoutMs : Nat)
    (h : env.connectOk port start = true) (hpos : 0 < timeoutMs) :
    wait_for_server env port start timeoutMs = true := by
  rw [wait_for_server, waitFrom]
  have : start < start + timeoutMs := by omega
  simp [this, h]

/-! ### Lemmas about the asset resolver -/

/-- Whatever the stack search returns holds the marker and is reachable from
some stack entry within that entry's remaining depth budget. -/
theorem searchStack_sound (fs : Fs) (stack : List (String × Nat)) (d : String)
    (h : searchStack fs stack = some d) :
    has_index_html fs d = true ∧
      ∃ e ∈ stack, Reach fs (MAX_SEARCH_DEPTH - e.2) e.1 d := by
  induction stack using searchStack.induct fs with
  | case1 =>
    rw [searchStack] at h
    exact absurd h (by simp)
  | case2 directory depth rest hidx =>
    rw [searchStack] at h
    rw [if_pos hidx] at h
    obtain rfl : directory = d := by simpa using h
    exact ⟨hidx, ⟨(directory, depth), List.mem_cons_self _ _, Reach.refl _ _⟩⟩
  | case3 directory depth rest hidx hdep ih =>
    rw [searchStack, if_neg hidx, if_pos hdep] at h
    obtain ⟨hd, e, he, hr⟩ := ih h
    exact ⟨hd, e, List.mem_cons_of_mem _ he, hr⟩
  | case4 directory depth rest hidx hdep ih =>
    rw [searchStack, if_neg hidx, if_neg hdep] at h
    obtain ⟨hd, e, he, hr⟩ := ih h
    refine ⟨hd, ?_⟩
    rcases List.mem_append.mp he with hchild | hrest
    · rw [List.mem_reverse] at hchild
      obtain ⟨c, hc, rfl⟩ := List.mem_map.mp hchild
      refine ⟨(directory, depth), List.mem_cons_self _ _, ?_⟩
      have hb : MAX_SEARCH_DEPTH - depth = (MAX_SEARCH_DEPTH - (depth + 1)) + 1 := by
        simp only [MAX_SEARCH_DEPTH] at hdep ⊢
        omega
      rw [hb]
      exact Reach.step hc hr
    · exact ⟨e, List.mem_cons_of_mem _ hrest, hr⟩

/-- The candidate loop returns a member of the list that holds the marker. -/
theorem firstWithIndex_sound (fs : Fs) (l : List String) (c : String)
    (h : firstWithIndex fs l = some c) :
    c ∈ l ∧ has_index_html fs c = true := by
  induction l with
  | nil => exact absurd h (by simp [firstWithIndex])
  | cons x xs ih =>
    rw [firstWithIndex] at h
    by_cases hx : has_index_html fs x
    · rw [if_pos hx] at h
      obtain rfl : x = c := by simpa using h
      exact ⟨List.mem_cons_self _ _, hx⟩
    · rw [if_neg hx] at h
      obtain ⟨hm, hi⟩ := ih h
      exact ⟨List.mem_cons_of_mem _ hm, hi⟩


/-! ### Claim theorems -/

/-- C7: for every host `h` and port `p`, `format_http_url h 80` is
`http://h` with no port suffix, `format_http_url h p` for `p ≠ 80` is
`http://h:p`; and `start_sidecar` applies that same function to both the
local URL (host `127.0.0.1`) and the LAN URL (the detected LAN IP) it
pushes in the runtime info. -/
theorem C7_format_http_url (host : String) (port : Nat) (env : SidecarEnv)
    (p : Nat) (d : String) :
    (port = 80 → format_http_url host port = "http://" ++ host)
    ∧ (port ≠ 80 →
        format_http_url host port = "http://" ++ host ++ ":" ++ toString port)
    ∧ (start_sidecar (okEnv env p d)).1.filter isSetInfo =
        [Effect.setRuntimeInfo (format_http_url LOCALHOST p)
          (format_http_url (detect_lan_ip env.net) p)
          (d ++ "/" ++ "rms-local.db")] := by
  refine ⟨?_, ?_, ?_⟩
  · intro h
    simp [format_http_url, h]
  · intro h
    simp [format_http_url, h]
  · simp only [start_sidecar, okEnv]
    split
    · rcases h : env.openUrl (format_http_url LOCALHOST p) with e | u <;>
        simp [isSetInfo]
    · simp [isSetInfo]

theorem C7_format_http_url_witness :
    format_http_url "127.0.0.1" 80 = "http://127.0.0.1"
    ∧ format_http_url "127.0.0.1" 8080 = "http://127.0.0.1:8080" := by
  have h80 := (C7_format_http_url "127.0.0.1" 80 envHappy 0 "").1 rfl
  have h8080 := (C7_format_http_url "127.0.0.1" 8080 envHappy 0 "").2.1 (by decide)
  exact ⟨h80.trans (by decide), h8080.trans (by decide)⟩

/-- C10: with a zero timeout the deadline `start + 0` is not strictly in the
future at the first loop check, so `wait_for_server` returns false at once
and performs no connect attempt at all — for every probe oracle, including
one where a listener is already accepting. -/
theorem C10_zero_timeout_no_attempt (env : ProbeEnv) (port start : Nat) :
    wait_for_server env port start 0 = false
    ∧ attemptTimes env port (start + 0) start = [] := by
  constructor
  · rw [wait_for_server, waitFrom]
    simp
  · rw [attemptTimes_eq_nil_iff]
    omega

/-- C5 counterexample: the source discards the result of
`socket.connect("8.8.8.8:80")` (`let _ = ...`), so when the connect step
fails and the subsequent local-address lookup succeeds (reporting the
never-connected socket's wildcard address), `detect_lan_ip` returns that
address, not the loopback fallback the claim requires. -/
theorem C5_counterexample :
    netConnectFail.connectWan = Except.error "network unreachable"
    ∧ detect_lan_ip netConnectFail = "0.0.0.0"
    ∧ detect_lan_ip netConnectFail ≠ "127.0.0.1" := by
  exact ⟨rfl, rfl, by decide⟩

/-- C5 amended: `detect_lan_ip` never returns an error (it is total and
returns a plain string); it returns `"127.0.0.1"` when UDP socket creation
fails or when the local-address lookup fails; the result of the connect
step is discarded, and whenever the bind and the lookup succeed the
function returns the looked-up local IP string regardless of the connect
outcome. -/
theorem C5_amended_fallbacks (net : NetEnv) (e : String)
    (c : Except String Unit) (a : String) :
    detect_lan_ip { net with bindUdp := .error e } = "127.0.0.1"
    ∧ detect_lan_ip { net with bindUdp := .ok (), localIp := .error e } = "127.0.0.1"
    ∧ detect_lan_ip { net with bindUdp := .ok (), connectWan := c, localIp := .ok a } = a :=
  ⟨rfl, rfl, rfl⟩

/-- C2 counterexample: with a 100 ms timeout and a port that never accepts,
the loop enters its cycle at instant `start = 0` (before the deadline 100),
the connect attempt runs its full 250 ms and the 200 ms sleep follows, so
polling activity ends only at 450 ms — after the `start + timeout`
deadline, contradicting the claim that no attempt or sleep extends past
it. -/
theorem C2_counterexample :
    finishTime probeNever 0 (0 + 100) 0 = 450
    ∧ 0 + 100 < finishTime probeNever 0 (0 + 100) 0 := by
  have h : finishTime probeNever 0 (0 + 100) 0 = 450 := by
    simp [finishTime, probeNever, attemptDur]
  exact ⟨h, by rw [h]; omega⟩

/-- C2 amended: the loop checks the deadline only before starting a cycle,
so every connect attempt begins strictly before `start + timeout`, but the
final cycle may overrun: all polling activity is over within 450 ms after
the deadline (one full 250 ms connect timeout plus one 200 ms sleep). -/
theorem C2_amended_deadline (env : ProbeEnv) (port start timeoutMs : Nat) :
    (∀ t ∈ attemptTimes env port (start + timeoutMs) start,
      t < start + timeoutMs)
    ∧ finishTime env port (start + timeoutMs) start ≤ start + timeoutMs + 450 := by
  constructor
  · intro t ht
    exact (attemptTimes_mem_lt env port (start + timeoutMs) start t ht).2
  · have h := finishTime_le env port (start + timeoutMs) start
    have hm : max start (start + timeoutMs + 449) = start + timeoutMs + 449 :=
      max_eq_right (by omega)
    rw [hm] at h
    omega

theorem C2_amended_deadline_witness :
    ((0 : Nat) ∈ attemptTimes probeNever 0 (0 + 100) 0 ∧ (0 : Nat) < 0 + 100)
    ∧ finishTime probeNever 0 (0 + 100) 0 ≤ 0 + 100 + 450 := by
  have hmem : (0 : Nat) ∈ attemptTimes probeNever 0 (0 + 100) 0 := by
    simp [attemptTimes, probeNever, attemptDur]
  exact ⟨⟨hmem, (C2_amended_deadline probeNever 0 0 100).1 0 hmem⟩,
    (C2_amended_deadline probeNever 0 0 100).2⟩

/-- C8: the drain task emits exactly one log message per output event whose
line is non-blank after trimming — tagged `[sidecar]` for the stdout
channel and `[sidecar:err]` for stderr — and nothing for blank or
whitespace-only lines; on the stdout line sequence "a", "", "  ", "b" it
emits exactly the two messages for "a" and "b". -/
theorem C8_drain_output (evs : List SidecarEvent) (line : String)
    (rest : List SidecarEvent) :
    (drainOutput evs).length = (evs.filter emitsLog).length
    ∧ (rustTrim line = "" →
        drainOutput (.stdout line :: rest) = drainOutput rest
        ∧ drainOutput (.stderr line :: rest) = drainOutput rest)
    ∧ (rustTrim line ≠ "" →
        drainOutput (.stdout line :: rest)
          = ("[sidecar] " ++ rustTrim line) :: drainOutput rest
        ∧ drainOutput (.stderr line :: rest)
          = ("[sidecar:err] " ++ rustTrim line) :: drainOutput rest)
    ∧ drainOutput [.stdout "a", .stdout "", .stdout "  ", .stdout "b"]
        = ["[sidecar] a", "[sidecar] b"] := by
  refine ⟨?_, ?_, ?_, by decide⟩
  · induction evs with
    | nil => rfl
    | cons ev rest ih =>
      cases ev with
      | stdout l =>
        by_cases h : rustTrim l = "" <;>
          simp [drainOutput, emitsLog, h, ih]
      | stderr l =>
        by_cases h : rustTrim l = "" <;>
          simp [drainOutput, emitsLog, h, ih]
      | other => simp [drainOutput, emitsLog, ih]
  · intro h
    constructor <;> simp [drainOutput, h]
  · intro h
    constructor <;> simp [drainOutput, h]

theorem C8_drain_output_witness :
    (rustTrim "  " = ""
      ∧ drainOutput [SidecarEvent.stdout "  ", SidecarEvent.stdout "a"]
          = drainOutput [SidecarEvent.stdout "a"])
    ∧ (rustTrim "a" ≠ ""
      ∧ drainOutput [SidecarEvent.stdout "a"] = ["[sidecar] a"]) := by
  have hblank := (C8_drain_output [] "  " [SidecarEvent.stdout "a"]).2.1 (by decide)
  have hlive := (C8_drain_output [] "a" []).2.2.1 (by decide)
  refine ⟨⟨by decide, hblank.1⟩, ⟨by decide, ?_⟩⟩
  rw [hlive.1]
  decide

/-- C1: `wait_for_server` performs a sequence of connect attempts, each
starting strictly before the `start + timeout` deadline, with exactly
`attemptDur` (the oracle's connect time capped at the 250 ms per-attempt
timeout) plus the 200 ms inter-attempt sleep between consecutive attempt
starts; it returns true exactly when one of those attempts succeeds — all
attempts before the final one having failed, i.e. it stops at the first
success — and false exactly when the deadline elapses with every attempt
failing. -/
theorem C1_wait_for_server_poll (env : ProbeEnv) (port start timeoutMs : Nat) :
    (wait_for_server env port start timeoutMs = true ↔
      ∃ t ∈ attemptTimes env port (start + timeoutMs) start,
        env.connectOk port t = true)
    ∧ (wait_for_server env port start timeoutMs = false ↔
        ∀ t ∈ attemptTimes env port (start + timeoutMs) start,
          env.connectOk port t = false)
    ∧ (∀ t ∈ attemptTimes env port (start + timeoutMs) start,
        start ≤ t ∧ t < start + timeoutMs)
    ∧ (∀ t ∈ (attemptTimes env port (start + timeoutMs) start).dropLast,
        env.connectOk port t = false)
    ∧ List.Chain' (fun a b => b = a + attemptDur env port a + 200)
        (attemptTimes env port (start + timeoutMs) start) := by
  have hiff := waitFrom_true_iff env port (start + timeoutMs) start
  refine ⟨?_, ?_, attemptTimes_mem_lt env port (start + timeoutMs) start,
    attemptTimes_dropLast_fail env port (start + timeoutMs) start,
    attemptTimes_chain env port (start + timeoutMs) start⟩
  · rw [wait_for_server]
    exact hiff
  · rw [wait_for_server]
    constructor
    · intro hf t ht
      cases hc : env.connectOk port t with
      | false => rfl
      | true =>
        have := hiff.mpr ⟨t, ht, hc⟩
        rw [hf] at this
        exact absurd this Bool.false_ne_true
    · intro hall
      cases hwf : waitFrom env port (start + timeoutMs) start with
      | false => rfl
      | true =>
        obtain ⟨t, ht, hok⟩ := hiff.mp hwf
        rw [hall t ht] at hok
        exact absurd hok Bool.false_ne_true

theorem C1_wait_for_server_poll_witness :
    (450 ∈ attemptTimes probeSeq 7 (0 + 1000) 0
      ∧ probeSeq.connectOk 7 450 = true
      ∧ wait_for_server probeSeq 7 0 1000 = true)
    ∧ ((0 : Nat) ∈ attemptTimes probeSeq 7 (0 + 1000) 0
      ∧ 0 ≤ (0 : Nat) ∧ (0 : Nat) < 0 + 1000)
    ∧ ((0 : Nat) ∈ (attemptTimes probeSeq 7 (0 + 1000) 0).dropLast
      ∧ probeSeq.connectOk 7 0 = false) := by
  have h := C1_wait_for_server_poll probeSeq 7 0 1000
  have hts : attemptTimes probeSeq 7 (0 + 1000) 0 = [0, 450] := by
    simp [attemptTimes, probeSeq, attemptDur]
  have hmem450 : 450 ∈ attemptTimes probeSeq 7 (0 + 1000) 0 := by
    rw [hts]; simp
  have hmem0 : (0 : Nat) ∈ attemptTimes probeSeq 7 (0 + 1000) 0 := by
    rw [hts]; simp
  have hd0 : (0 : Nat) ∈ (attemptTimes probeSeq 7 (0 + 1000) 0).dropLast := by
    rw [hts]; simp
  exact ⟨⟨hmem450, by decide, h.1.mpr ⟨450, hmem450, by decide⟩⟩,
    ⟨hmem0, (h.2.2.1 0 hmem0).1, (h.2.2.1 0 hmem0).2⟩,
    ⟨hd0, h.2.2.2.1 0 hd0⟩⟩

/-- C6: `resolve_web_dist` is total (it always returns some path). A path
found in the resources holds the `index.html` marker and is either one of
the five ordered direct candidates or reachable from the resource root in
at most `MAX_SEARCH_DEPTH = 5` subdirectory steps; with the first two
direct candidates lacking the marker and the third holding it, the third
is returned; a found path is what `resolve_web_dist` returns; and when the
search finds nothing — or the resource directory is unavailable — the
fixed workspace build-output path is returned unconditionally, whether or
not it holds the marker (the statement assumes nothing about it). -/
theorem C6_resolve_web_dist_total (fs : Fs) (rd md e w : String) :
    MAX_SEARCH_DEPTH = 5
    ∧ (∀ x, find_web_dist_in_resources fs rd = some x →
        has_index_html fs x = true
        ∧ (x ∈ directCandidates rd ∨ Reach fs MAX_SEARCH_DEPTH rd x))
    ∧ (has_index_html fs rd = false →
        has_index_html fs (rd ++ "/" ++ "web-dist") = false →
        has_index_html fs (rd ++ "/" ++ "dist") = true →
        find_web_dist_in_resources fs rd = some (rd ++ "/" ++ "dist"))
    ∧ (find_web_dist_in_resources fs rd = some w →
        resolve_web_dist fs (.ok rd) md = w)
    ∧ (find_web_dist_in_resources fs rd = none →
        resolve_web_dist fs (.ok rd) md = workspacePath md)
    ∧ resolve_web_dist fs (.error e) md = workspacePath md := by
  refine ⟨rfl, ?_, ?_, ?_, ?_, ?_⟩
  · intro x hx
    rw [find_web_dist_in_resources] at hx
    rcases hf : firstWithIndex fs (directCandidates rd) with _ | c
    · rw [hf] at hx
      obtain ⟨hidx, ent, hent, hreach⟩ := searchStack_sound fs [(rd, 0)] x hx
      refine ⟨hidx, Or.inr ?_⟩
      obtain rfl : ent = (rd, 0) := by simpa using hent
      simpa using hreach
    · rw [hf] at hx
      have hcx : c = x := by simpa using hx
      subst hcx
      obtain ⟨hmem, hidx⟩ := firstWithIndex_sound fs (directCandidates rd) c hf
      exact ⟨hidx, Or.inl hmem⟩
  · intro h1 h2 h3
    rw [find_web_dist_in_resources, directCandidates, firstWithIndex]
    rw [if_neg (by simp [h1])]
    rw [firstWithIndex, if_neg (by simp [h2])]
    rw [firstWithIndex, if_pos h3]
  · intro hw
    rw [resolve_web_dist, hw]
  · intro hn
    rw [resolve_web_dist, hn]
    simp
  · rw [resolve_web_dist]
    simp

theorem C6_resolve_web_dist_total_witness :
    (find_web_dist_in_resources fsDist "/rd" = some ("/rd" ++ "/" ++ "dist")
      ∧ has_index_html fsDist ("/rd" ++ "/" ++ "dist") = true)
    ∧ resolve_web_dist fsDist (Except.ok "/rd") "/ws" = "/rd" ++ "/" ++ "dist"
    ∧ resolve_web_dist fsEmpty (Except.ok "/rd") "/ws" = workspacePath "/ws"
    ∧ has_index_html fsEmpty (workspacePath "/ws") = false := by
  have h := C6_resolve_web_dist_total fsDist "/rd" "/ws" "e" ("/rd" ++ "/" ++ "dist")
  have h0 := C6_resolve_web_dist_total fsEmpty "/rd" "/ws" "e" ""
  have hfind : find_web_dist_in_resources fsDist "/rd"
      = some ("/rd" ++ "/" ++ "dist") :=
    h.2.2.1 (by decide) (by decide) (by decide)
  have hnone : find_web_dist_in_resources fsEmpty "/rd" = none := by
    simp [find_web_dist_in_resources, firstWithIndex, directCandidates,
      has_index_html, fsEmpty, searchStack]
  exact ⟨⟨hfind, (h.2.1 _ hfind).1⟩, h.2.2.2.1 hfind,
    h0.2.2.2.2.1 hnone, by decide⟩

/-- C3: `start_sidecar` is fail-fast. A port-reservation failure returns
that error with no spawn, no readiness probe and no URL open; a
data-directory resolution or creation failure likewise; a sidecar-lookup
failure returns its error with nothing spawned; a spawn failure returns
its error with no probe and no open; and a readiness timeout is reported
with the distinct fixed error string "Sidecar readiness timeout" (not a
spawn error) and no open. Every error is the step's human-readable string
(the result type is `Except String Unit`). -/
theorem C3_start_sidecar_fail_fast (env : SidecarEnv) (e : String) (p : Nat)
    (d : String) :
    ((start_sidecar { env with reservePort := .error e }).2 = .error e
      ∧ (start_sidecar { env with reservePort := .error e }).1.filter
          (fun x => isSpawned x || isProbed x || isOpen x) = [])
    ∧ ((start_sidecar { env with reservePort := .ok p, appDataDir := .error e }).2 = .error e
      ∧ (start_sidecar { env with reservePort := .ok p, appDataDir := .error e }).1.filter
          (fun x => isSpawned x || isProbed x || isOpen x) = [])
    ∧ ((start_sidecar { env with reservePort := .ok p, appDataDir := .ok d, createDirAll := fun _ => .error e }).2 = .error e
      ∧ (start_sidecar { env with reservePort := .ok p, appDataDir := .ok d, createDirAll := fun _ => .error e }).1.filter
          (fun x => isSpawned x || isProbed x || isOpen x) = [])
    ∧ ((start_sidecar { okEnv env p d with sidecarCmd := .error e }).2 = .error e
      ∧ (start_sidecar { okEnv env p d with sidecarCmd := .error e }).1.filter
          (fun x => isSpawned x || isProbed x || isOpen x) = [])
    ∧ ((start_sidecar { okEnv env p d with spawn := fun _ => .error e }).2
          = .error e
      ∧ (start_sidecar { okEnv env p d with spawn := fun _ => .error e }).1.filter
          (fun x => isProbed x || isOpen x) = [])
    ∧ ((start_sidecar { okEnv env p d with probe := probeNever }).2
          = .error "Sidecar readiness timeout"
      ∧ (start_sidecar { okEnv env p d with probe := probeNever }).1.filter
          isOpen = []) := by
  have hwf : wait_for_server probeNever p env.probeStart 10000 = false := by
    rw [wait_for_server]
    exact waitFrom_eq_false_of_never probeNever p _ _ (fun _ => rfl)
  refine ⟨⟨rfl, rfl⟩, ⟨rfl, rfl⟩, ⟨rfl, rfl⟩, ⟨rfl, ?_⟩, ⟨rfl, ?_⟩, ?_⟩
  · simp [start_sidecar, okEnv, isSpawned, isProbed, isOpen]
  · simp [start_sidecar, okEnv, isProbed, isOpen]
  · constructor
    · simp [start_sidecar, okEnv, hwf]
    · simp [start_sidecar, okEnv, hwf, isOpen]

/-- C4 counterexample: in a launch attempt whose port reservation fails,
`set_runtime_info` is never called, refuting "in every launch attempt ...
called exactly once". -/
theorem C4_counterexample :
    (start_sidecar envReserveFail).2 = .error "bind failed"
    ∧ (start_sidecar envReserveFail).1.filter isSetInfo = []
    ∧ ((start_sidecar envReserveFail).1.filter isSetInfo).length ≠ 1 := by
  exact ⟨rfl, rfl, by decide⟩

/-- C4 amended: in every launch attempt whose steps before the readiness
probe (port reservation, data-directory resolution and creation, sidecar
lookup, spawn) succeed, `set_runtime_info` is called exactly once, with
the computed URLs and db path, and before the sidecar is spawned (the
trace filtered to those two effects is exactly the info push followed by
the spawn); `open_url` is called exactly once with the computed local URL
precisely when `wait_for_server` returns true; and it is never called when
the probe times out or an earlier step fails. -/
theorem C4_amended_runtime_info_once (env : SidecarEnv) (p : Nat) (d e : String) :
    ((start_sidecar (okEnv env p d)).1.filter
        (fun x => isSetInfo x || isSpawned x) =
      [ Effect.setRuntimeInfo (format_http_url LOCALHOST p)
          (format_http_url (detect_lan_ip env.net) p)
          (d ++ "/" ++ "rms-local.db")
      , Effect.spawned
          [ "--host", SERVER_HOST, "--port", toString p
          , "--db-path", d ++ "/" ++ "rms-local.db"
          , "--web-dist", resolve_web_dist env.fs env.resourceDir env.manifestDir ] ])
    ∧ ((start_sidecar (okEnv env p d)).1.filter isOpen =
        if wait_for_server env.probe p env.probeStart 10000
        then [Effect.openUrl (format_http_url LOCALHOST p)] else [])
    ∧ (start_sidecar { env with reservePort := .error e }).1.filter isOpen = []
    ∧ (start_sidecar { okEnv env p d with probe := probeNever }).1.filter
        isOpen = [] := by
  have hwf : wait_for_server probeNever p env.probeStart 10000 = false := by
    rw [wait_for_server]
    exact waitFrom_eq_false_of_never probeNever p _ _ (fun _ => rfl)
  refine ⟨?_, ?_, rfl, ?_⟩
  · simp only [start_sidecar, okEnv]
    split
    · rcases h : env.openUrl (format_http_url LOCALHOST p) with x | x <;>
        simp [isSetInfo, isSpawned]
    · simp [isSetInfo, isSpawned]
  · simp only [start_sidecar, okEnv]
    split
    · rcases h : env.openUrl (format_http_url LOCALHOST p) with x | x <;>
        simp [isOpen]
    · simp [isOpen]
  · simp [start_sidecar, okEnv, hwf, isOpen]

/-- C9: in every launch attempt that reaches the spawn, the argument list
handed to the sidecar is exactly the eight strings `--host`, `0.0.0.0`
(the fixed `SERVER_HOST`), `--port`, the reserved port in decimal,
`--db-path`, the path of `rms-local.db` under the app data directory, and
`--web-dist`, the resolved web-dist path, in that order; the db path is the
application data directory joined with the fixed database file name. -/
theorem C9_sidecar_args (env : SidecarEnv) (p : Nat) (d : String) :
    ((start_sidecar (okEnv env p d)).1.filter isSpawned =
      [ Effect.spawned
          [ "--host", SERVER_HOST, "--port", toString p
          , "--db-path", d ++ "/" ++ "rms-local.db"
          , "--web-dist", resolve_web_dist env.fs env.resourceDir env.manifestDir ] ])
    ∧ SERVER_HOST = "0.0.0.0"
    ∧ ∃ pre, d ++ "/" ++ "rms-local.db" = pre ++ "rms-local.db" := by
  refine ⟨?_, rfl, ⟨d ++ "/", rfl⟩⟩
  simp only [start_sidecar, okEnv]
  split
  · rcases h : env.openUrl (format_http_url LOCALHOST p) with x | x <;>
      simp [isSpawned]
  · simp [isSpawned]

-- MORE-THEOREMS-HERE

end RmsTauri
